import Mathlib

/-!
Verification of the QUIC-like transport in `hw5` (`packet.py`, `quic_impl.py`).

The Python code is shallowly embedded: byte buffers are `List Nat` (each
element a byte value), the dataclasses of `packet.py` become structures with
executable big-endian encoders/decoders, and the mutable `QuicConnection`
object of `quic_impl.py` becomes a `ConnState` record with explicit
state-passing functions for each method.  The two ctypes `BigEndianStructure`
layouts keep native field alignment (no `_pack_`), so `QuicPacketHeader`
occupies 8 bytes (1 type byte, 3 padding bytes, 4 packet-number bytes) and the
fixed part of `QuicStreamFrame` occupies 24 bytes (4 id bytes, 4 padding,
8 offset bytes, 2 length bytes, 1 finished byte, 5 padding); these sizes were
checked against `ctypes.sizeof` on the reference interpreter.
-/

/-- Big-endian encoding of `n` into `w` bytes, most significant byte first,
mirroring a `ctypes.BigEndianStructure` unsigned field of width `w`. -/
def beBytes : Nat → Nat → List Nat
  | 0, _ => []
  | w + 1, n => beBytes w (n / 256) ++ [n % 256]

/-- Big-endian value of a byte list, most significant byte first. -/
def beVal (l : List Nat) : Nat :=
  l.foldl (fun acc b => acc * 256 + b) 0

theorem beBytes_length (w n : Nat) : (beBytes w n).length = w := by
  induction w generalizing n with
  | zero => rfl
  | succ w ih => simp [beBytes, ih]

theorem beVal_append_single (l : List Nat) (b : Nat) :
    beVal (l ++ [b]) = beVal l * 256 + b := by
  simp [beVal, List.foldl_append]

theorem beVal_beBytes (w n : Nat) (h : n < 256 ^ w) : beVal (beBytes w n) = n := by
  induction w generalizing n with
  | zero =>
    interval_cases n
    rfl
  | succ w ih =>
    have hdiv : n / 256 < 256 ^ w := by
      rw [Nat.div_lt_iff_lt_mul (by norm_num)]
      calc n < 256 ^ (w + 1) := h
        _ = 256 ^ w * 256 := by ring
    rw [beBytes, beVal_append_single, ih _ hdiv]
    omega

theorem take_beBytes_append (w n : Nat) (l : List Nat) :
    (beBytes w n ++ l).take w = beBytes w n := by
  rw [List.take_append_of_le_length (by rw [beBytes_length])]
  exact List.take_of_length_le (le_of_eq (beBytes_length w n))

theorem drop_beBytes_append (w n : Nat) (l : List Nat) :
    (beBytes w n ++ l).drop w = l := by
  rw [List.drop_append_of_le_length (by rw [beBytes_length])]
  rw [List.drop_eq_nil_of_le (le_of_eq (beBytes_length w n))]
  rfl

/-- Decode failure, modelling the `ValueError` raised by
`ctypes.Structure.from_buffer_copy` on a too-small buffer and by the enum
constructors on an unknown tag value. -/
inductive DecodeErr where
  | bufferTooSmall
  | invalidValue
deriving DecidableEq, Repr

/-- `QuicPacketType` from `packet.py` (`enum.auto`: Initial = 1, OneRTT = 2). -/
inductive QuicPacketType where
  | Initial
  | OneRTT
deriving DecidableEq, Repr

/-- Wire value of a packet type (`QuicPacketType.Initial.value == 1`). -/
def QuicPacketType.val : QuicPacketType → Nat
  | .Initial => 1
  | .OneRTT => 2

/-- `QuicFrameType` from `packet.py` (`enum.auto`: Ack = 1, Stream = 2). -/
inductive QuicFrameType where
  | Ack
  | Stream
deriving DecidableEq, Repr

/-- Wire value of a frame type (`QuicFrameType.Ack.value == 1`). -/
def QuicFrameType.val : QuicFrameType → Nat
  | .Ack => 1
  | .Stream => 2

/-- `QuicPacketHeader` dataclass: a packet type tag and a `c_uint32`
packet number. -/
structure QuicPacketHeader where
  packet_type : QuicPacketType
  packet_number : Nat
deriving DecidableEq, Repr

/-- `ctypes.sizeof(QuicPacketHeader.Struct)`: 1 tag byte, 3 alignment padding
bytes, 4 packet-number bytes. -/
def QuicPacketHeader.sizeB : Nat := 8

/-- `QuicPacketHeader.to_bytes`: the ctypes struct serialized big-endian,
padding bytes zero. -/
def QuicPacketHeader.to_bytes (h : QuicPacketHeader) : List Nat :=
  beBytes 1 h.packet_type.val ++ [0, 0, 0] ++ beBytes 4 h.packet_number

/-- `QuicPacketHeader.from_bytes`: `from_buffer_copy` rejects a buffer shorter
than the struct size; the enum constructor rejects unknown tag values. -/
def QuicPacketHeader.from_bytes (data : List Nat) : Except DecodeErr QuicPacketHeader :=
  if data.length < QuicPacketHeader.sizeB then .error .bufferTooSmall
  else if data.getD 0 0 = 1 then .ok ⟨.Initial, beVal ((data.drop 4).take 4)⟩
  else if data.getD 0 0 = 2 then .ok ⟨.OneRTT, beVal ((data.drop 4).take 4)⟩
  else .error .invalidValue

/-- `QuicFrameHeader` dataclass: a single frame-type tag byte. -/
structure QuicFrameHeader where
  frame_type : QuicFrameType
deriving DecidableEq, Repr

/-- `ctypes.sizeof(QuicFrameHeader.Struct)`. -/
def QuicFrameHeader.sizeB : Nat := 1

/-- `QuicFrameHeader.to_bytes`. -/
def QuicFrameHeader.to_bytes (h : QuicFrameHeader) : List Nat :=
  beBytes 1 h.frame_type.val

/-- `QuicFrameHeader.from_bytes`. -/
def QuicFrameHeader.from_bytes (data : List Nat) : Except DecodeErr QuicFrameHeader :=
  if data.length < QuicFrameHeader.sizeB then .error .bufferTooSmall
  else if data.getD 0 0 = 1 then .ok ⟨.Ack⟩
  else if data.getD 0 0 = 2 then .ok ⟨.Stream⟩
  else .error .invalidValue

/-- `QuicAckFrame` dataclass: two `c_uint32` fields, no padding. -/
structure QuicAckFrame where
  packet_number : Nat
  window_size : Nat
deriving DecidableEq, Repr

/-- `ctypes.sizeof(QuicAckFrame.Struct)`. -/
def QuicAckFrame.sizeB : Nat := 8

/-- `QuicAckFrame.to_bytes`. -/
def QuicAckFrame.to_bytes (a : QuicAckFrame) : List Nat :=
  beBytes 4 a.packet_number ++ beBytes 4 a.window_size

/-- `QuicAckFrame.from_bytes`. -/
def QuicAckFrame.from_bytes (data : List Nat) : Except DecodeErr QuicAckFrame :=
  if data.length < QuicAckFrame.sizeB then .error .bufferTooSmall
  else .ok ⟨beVal (data.take 4), beVal ((data.drop 4).take 4)⟩

/-- `QuicStreamFrame` dataclass.  The Python field `finished` is annotated
`bool` but is stored through a `c_uint8` and read back as a raw integer by
`from_bytes`; since Python's `==` identifies `True` with `1` and `False` with
`0`, the field is modelled as the `c_uint8` value (`1` for a finished frame).
`data` is the payload byte string appended after the fixed-layout part. -/
structure QuicStreamFrame where
  stream_id : Nat
  offset : Nat
  length : Nat
  finished : Nat
  data : List Nat
deriving DecidableEq, Repr

/-- `ctypes.sizeof(QuicStreamFrame.Struct)`: 4 id bytes, 4 padding, 8 offset
bytes, 2 length bytes, 1 finished byte, 5 trailing padding bytes. -/
def QuicStreamFrame.sizeB : Nat := 24

/-- `QuicStreamFrame.to_bytes`: the fixed ctypes struct followed by the raw
payload bytes. -/
def QuicStreamFrame.to_bytes (f : QuicStreamFrame) : List Nat :=
  beBytes 4 f.stream_id ++ [0, 0, 0, 0] ++ beBytes 8 f.offset ++
    beBytes 2 f.length ++ beBytes 1 f.finished ++ [0, 0, 0, 0, 0] ++ f.data

/-- `QuicStreamFrame.from_bytes`: decodes the fixed part and takes the entire
remainder of the buffer as payload (`data[cls.size():]`); the `length` field
is not consulted when slicing the payload. -/
def QuicStreamFrame.from_bytes (data : List Nat) : Except DecodeErr QuicStreamFrame :=
  if data.length < QuicStreamFrame.sizeB then .error .bufferTooSmall
  else .ok ⟨beVal (data.take 4), beVal ((data.drop 8).take 8),
    beVal ((data.drop 16).take 2), beVal ((data.drop 18).take 1), data.drop 24⟩

/-! ## Connection model (`quic_impl.py`) -/

/-- `RETRY_COUNT` from `quic_impl.py` (declared there but never referenced by
any function of the module). -/
def RETRY_COUNT : Nat := 3

/-- `RECEIVE_SIZE` from `quic_impl.py`: the receive window every handshake
message advertises. -/
def RECEIVE_SIZE : Nat := 650

/-- `PACKET_SIZE` from `quic_impl.py`. -/
def PACKET_SIZE : Nat := 1500

/-- `SSTHRESH` from `quic_impl.py`. -/
def SSTHRESH : Nat := 64

/-- `TIMEOUT` from `quic_impl.py` (seconds, modelled as a rational). -/
def TIMEOUT : ℚ := 1

/-- `SenderWindowEntry` dataclass.  `sent_time` is the `time.time()` value of
the last transmission, `0` meaning "never sent". -/
structure SenderWindowEntry where
  packet_number : Nat
  frame : QuicStreamFrame
  sent_time : ℚ
deriving DecidableEq, Repr

/-- The mutable state of a `QuicConnection`.  Python dictionaries are
modelled as association lists in insertion order (Python 3.7+ dicts preserve
insertion order, which the sender and receiver loops iterate in).  `sent` is
the trace of byte strings handed to `socket.send`, oldest first. -/
structure ConnState where
  is_closed : Bool
  max_window_size : Nat
  send_buffer : List (Nat × List QuicStreamFrame)
  sender_window_size : Nat
  sender_window : List SenderWindowEntry
  ack_list : List QuicAckFrame
  exponential_growth : Bool
  packet_number : Nat
  recv_buffer : List (Nat × List QuicStreamFrame)
  sent : List (List Nat)
deriving DecidableEq, Repr

/-- `QuicConnection.__init__`: window size starts at 4, slow start on. -/
def initConn (max_window_size packet_number : Nat) : ConnState :=
  { is_closed := false
    max_window_size := max_window_size
    send_buffer := []
    sender_window_size := 4
    sender_window := []
    ack_list := []
    exponential_growth := true
    packet_number := packet_number
    recv_buffer := []
    sent := [] }

/-- Bytes of a OneRTT packet carrying one stream frame, as assembled in
`sender_thread`. -/
def streamPacket (pn : Nat) (f : QuicStreamFrame) : List Nat :=
  QuicPacketHeader.to_bytes ⟨.OneRTT, pn⟩ ++ QuicFrameHeader.to_bytes ⟨.Stream⟩ ++
    f.to_bytes

/-- Bytes of a OneRTT packet carrying one ACK frame, as assembled in
`sender_thread`. -/
def ackPacket (pn : Nat) (a : QuicAckFrame) : List Nat :=
  QuicPacketHeader.to_bytes ⟨.OneRTT, pn⟩ ++ QuicFrameHeader.to_bytes ⟨.Ack⟩ ++
    a.to_bytes

/-- Python dict assignment `d[k] = v`: replace the value of an existing key in
place, or append a new key at the end. -/
def setSB (k : Nat) (v : List QuicStreamFrame) :
    List (Nat × List QuicStreamFrame) → List (Nat × List QuicStreamFrame)
  | [] => [(k, v)]
  | (k', v') :: rest => if k' = k then (k', v) :: rest else (k', v') :: setSB k v rest

/-- Python dict lookup `d.get(k)`. -/
def lookupSB (k : Nat) : List (Nat × List QuicStreamFrame) → Option (List QuicStreamFrame)
  | [] => none
  | (k', v') :: rest => if k' = k then some v' else lookupSB k rest

/-- `max_stream_size` computed in `QuicConnection.send`:
`PACKET_SIZE - 8 - 1 - 24 = 1467` payload bytes per frame. -/
def MAX_STREAM_SIZE : Nat :=
  PACKET_SIZE - QuicPacketHeader.sizeB - QuicFrameHeader.sizeB - QuicStreamFrame.sizeB

/-- The fragmentation loop of `QuicConnection.send`
(`for i in range(0, len(data), max_stream_size)`), fuel-recursive: the fuel
`data.length` dominates the number of loop iterations because the stride is
at least 1. -/
def fragmentGo (sid : Nat) (data : List Nat) : Nat → Nat → List QuicStreamFrame
  | 0, _ => []
  | fuel + 1, i =>
    if i < data.length then
      { stream_id := sid
        offset := i
        length := if data.length ≤ i + MAX_STREAM_SIZE then data.length - i else MAX_STREAM_SIZE
        finished := if data.length ≤ i + MAX_STREAM_SIZE then 1 else 0
        data := (data.drop i).take MAX_STREAM_SIZE } :: fragmentGo sid data fuel (i + MAX_STREAM_SIZE)
    else []

/-- The frame list built by `QuicConnection.send` for one call. -/
def fragment (sid : Nat) (data : List Nat) : List QuicStreamFrame :=
  fragmentGo sid data data.length 0

/-- `QuicConnection.send`: fragments the data and assigns the frame list to
`send_buffer[stream_id]`, replacing any frames previously queued there. -/
def sendOnStream (sid : Nat) (data : List Nat) (s : ConnState) : ConnState :=
  { s with send_buffer := setSB sid (fragment sid data) s.send_buffer }

/-- Stable insertion into a list sorted by `offset` (earlier-arrived frames
stay first among equal offsets), modelling Python's stable
`sorted(frames, key=lambda f: f.offset)`. -/
def insertFrame (f : QuicStreamFrame) : List QuicStreamFrame → List QuicStreamFrame
  | [] => [f]
  | g :: gs => if f.offset ≤ g.offset then f :: g :: gs else g :: insertFrame f gs

/-- `sorted(frames, key=lambda f: f.offset)`. -/
def sortFrames : List QuicStreamFrame → List QuicStreamFrame
  | [] => []
  | f :: fs => insertFrame f (sortFrames fs)

/-- The condition scanned by the contiguity loop in `QuicConnection.recv`:
some adjacent pair of sorted frames leaves a gap
(`frames[i].offset + frames[i].length != frames[i+1].offset`). -/
def hasGap : List QuicStreamFrame → Bool
  | [] => false
  | [_] => false
  | f :: g :: rest => (decide (f.offset + f.length ≠ g.offset)) || hasGap (g :: rest)

/-- The per-stream completion test of `QuicConnection.recv`: sort by offset,
require the last frame finished and the first offset 0, then concatenate all
payloads.  The source also runs the contiguity scan (`hasGap`), but its
`break` only leaves that inner scan and its outcome is never consulted, so
assembly proceeds regardless of gaps; the scan therefore does not appear in
the returned value. -/
def recvCheck (frames : List QuicStreamFrame) : Option (List Nat) :=
  match sortFrames frames with
  | [] => none
  | f :: rest =>
    if (List.getLastD (f :: rest) f).finished = 0 then none
    else if f.offset ≠ 0 then none
    else some (((f :: rest).map QuicStreamFrame.data).flatten)

/-- One pass of the stream scan in `QuicConnection.recv`: the first stream
whose buffered frames pass `recvCheck` is returned and deleted from
`recv_buffer` (`del self.recv_buffer[stream_id]`). -/
def recvStep : List (Nat × List QuicStreamFrame) →
    Option (Nat × List Nat × List (Nat × List QuicStreamFrame))
  | [] => none
  | (sid, fs) :: rest =>
    match recvCheck fs with
    | some d => some (sid, d, rest)
    | none => (recvStep rest).map (fun r => (r.1, r.2.1, (sid, fs) :: r.2.2))

/-- The `for ... else` search in `QuicConnection.handle_ack`: remove the first
window entry carrying the acknowledged packet number, or report `none`. -/
def removeFirstEntry (pn : Nat) : List SenderWindowEntry → Option (List SenderWindowEntry)
  | [] => none
  | e :: es =>
    if e.packet_number = pn then some es
    else (removeFirstEntry pn es).map (fun es' => e :: es')

/-- `QuicConnection.handle_ack`: a missing packet number is a no-op; otherwise
pop the entry, grow the window (doubling in slow start, +1 otherwise), clamp
to `max_window_size`, and leave slow start once the clamped window exceeds
`SSTHRESH`. -/
def handle_ack (a : QuicAckFrame) (s : ConnState) : ConnState :=
  match removeFirstEntry a.packet_number s.sender_window with
  | none => s
  | some w =>
    let grown := if s.exponential_growth then s.sender_window_size * 2
      else s.sender_window_size + 1
    let clamped := if s.max_window_size < grown then s.max_window_size else grown
    { s with
      sender_window := w
      sender_window_size := clamped
      exponential_growth := if SSTHRESH < clamped then false else s.exponential_growth }

/-- `recv_buffer.setdefault(stream_id, []).append(frame)`: append to the
stream's frame list, creating the key at the end of the dict if absent. -/
def appendRecv (sid : Nat) (f : QuicStreamFrame) :
    List (Nat × List QuicStreamFrame) → List (Nat × List QuicStreamFrame)
  | [] => [(sid, [f])]
  | (k, v) :: rest =>
    if k = sid then (k, v ++ [f]) :: rest else (k, v) :: appendRecv sid f rest

/-- `QuicConnection.handle_stream`: buffer the frame and queue an ACK naming
the carrying packet's number. -/
def handle_stream (pn : Nat) (f : QuicStreamFrame) (s : ConnState) : ConnState :=
  { s with
    recv_buffer := appendRecv f.stream_id f s.recv_buffer
    ack_list := s.ack_list ++ [⟨pn, RECEIVE_SIZE⟩] }

/-- Python `list.remove(x)`: delete the first element equal to `x`.  (Python
raises `ValueError` when `x` is absent; in `sender_thread` the removed element
always comes from a copy of the same list, so that branch is unreachable and
the model leaves the list unchanged.) -/
def py_remove (a : QuicAckFrame) : List QuicAckFrame → List QuicAckFrame
  | [] => []
  | x :: xs => if x = a then xs else x :: py_remove a xs

/-- The ACK-draining loop at the end of each `sender_thread` iteration: walk a
copy of `ack_list`, send each pending ACK in a fresh OneRTT packet (consuming
a packet number), and remove it from the live list. -/
def flushAcksGo : List QuicAckFrame → ConnState → ConnState
  | [], s => s
  | a :: rest, s =>
    flushAcksGo rest
      { s with
        packet_number := s.packet_number + 1
        sent := s.sent ++ [ackPacket s.packet_number a]
        ack_list := py_remove a s.ack_list }

/-- Drain `ack_list` as one `sender_thread` iteration does. -/
def flushAcks (s : ConnState) : ConnState := flushAcksGo s.ack_list s

/-- Result of one pass of the admission `for` loop in `sender_thread`. -/
structure AdmitResult where
  buf : List (Nat × List QuicStreamFrame)
  win : List SenderWindowEntry
  pn : Nat
  moved : Bool
deriving DecidableEq, Repr

/-- One pass of `for frames in send_buffer.values()` in `sender_thread`:
streams are visited in dict order; an empty queue is skipped; once the window
is full the pass breaks; otherwise the stream's first frame is popped into a
fresh window entry with `sent_time = 0`.  `moved` is the `has_frames` flag. -/
def admitPassGo : List (Nat × List QuicStreamFrame) → List SenderWindowEntry →
    Nat → Nat → Bool → AdmitResult
  | [], win, _, pn, has => ⟨[], win, pn, has⟩
  | (sid, []) :: rest, win, wsize, pn, has =>
    let r := admitPassGo rest win wsize pn has
    ⟨(sid, []) :: r.buf, r.win, r.pn, r.moved⟩
  | (sid, f :: fs) :: rest, win, wsize, pn, has =>
    if wsize ≤ win.length then ⟨(sid, f :: fs) :: rest, win, pn, has⟩
    else
      let r := admitPassGo rest (win ++ [⟨pn, f, 0⟩]) wsize (pn + 1) true
      ⟨(sid, fs) :: r.buf, r.win, r.pn, r.moved⟩

/-- Total number of frames waiting in `send_buffer`. -/
def totalPending (s : ConnState) : Nat :=
  (s.send_buffer.map (fun p => p.2.length)).sum

/-- The admission `while len(sender_window) < sender_window_size` loop,
fuel-recursive: every productive pass moves at least one frame, so
`totalPending s + 1` units of fuel make the model run the loop to the same
exit the Python loop reaches. -/
def admitFrames : Nat → ConnState → ConnState
  | 0, s => s
  | fuel + 1, s =>
    if s.sender_window.length < s.sender_window_size then
      let r := admitPassGo s.send_buffer s.sender_window s.sender_window_size
        s.packet_number false
      let s' := { s with send_buffer := r.buf, sender_window := r.win, packet_number := r.pn }
      if r.moved then admitFrames fuel s' else s'
    else s

/-- The loss test of the retransmission scan: some window entry both timed out
(`time.time() - sent_time > TIMEOUT`) and had been sent before
(`sent_time != 0`).  Evaluated against the window as it stands after
admission, before `sent_time` is overwritten. -/
def hasLoss (now : ℚ) (s : ConnState) : Bool :=
  s.sender_window.any fun e =>
    decide (TIMEOUT < now - e.sent_time) && decide (e.sent_time ≠ 0)

/-- The retransmission scan of `sender_thread`: every entry past the timeout
is (re)sent and its `sent_time` reset to the current time.  All `time.time()`
calls within one iteration are modelled as the single instant `now`. -/
def resendTimedOut (now : ℚ) (s : ConnState) : ConnState :=
  { s with
    sender_window := s.sender_window.map fun e =>
      if TIMEOUT < now - e.sent_time then { e with sent_time := now } else e
    sent := s.sent ++
      (s.sender_window.filter fun e => decide (TIMEOUT < now - e.sent_time)).map
        fun e => streamPacket e.packet_number e.frame }

/-- One full iteration of the `while True` body of `sender_thread`: admit
frames up to the window size, (re)send timed-out entries, halve the window
and leave slow start when a retransmission signalled a loss, then drain the
pending ACKs. -/
def sender_iteration (now : ℚ) (s : ConnState) : ConnState :=
  let s₁ := admitFrames (totalPending s + 1) s
  let loss := hasLoss now s₁
  let s₂ := resendTimedOut now s₁
  let s₃ := if loss then
      { s₂ with
        sender_window_size := max 1 (s₂.sender_window_size / 2)
        exponential_growth := false }
    else s₂
  flushAcks s₃

/-- The `while True` loop of `sender_thread`, driven by a finite schedule:
before each iteration the receiver worker may have appended ACKs to
`ack_list` (the schedule's second component) and the clock reads the
schedule's first component.  The loop exits (`some`) when, at the bottom of an
iteration, the connection is closed and no ACK is pending; an exhausted
schedule (`none`) stands for a run that never reached the exit within the
modelled steps. -/
def senderLoopRun : List (ℚ × List QuicAckFrame) → ConnState → Option ConnState
  | [], _ => none
  | (now, incoming) :: rest, s =>
    let s₁ := sender_iteration now { s with ack_list := s.ack_list ++ incoming }
    if s₁.is_closed = true ∧ s₁.ack_list = [] then some s₁
    else senderLoopRun rest s₁

/-- One iteration of `receiver_thread` applied to one datagram: an empty read
is skipped; decoding errors are NOT caught anywhere in the thread, so they
propagate (`Except.error`), terminating the thread; `Initial` packets are
ignored; ACK and stream frames are dispatched to their handlers. -/
def receiverStep (s : ConnState) (data : List Nat) : Except DecodeErr ConnState :=
  if data = [] then .ok s
  else do
    let header ← QuicPacketHeader.from_bytes data
    if header.packet_type = .Initial then return s
    let fh ← QuicFrameHeader.from_bytes (data.drop QuicPacketHeader.sizeB)
    match fh.frame_type with
    | .Ack => do
      let a ← QuicAckFrame.from_bytes
        (data.drop (QuicPacketHeader.sizeB + QuicFrameHeader.sizeB))
      return handle_ack a s
    | .Stream => do
      let f ← QuicStreamFrame.from_bytes
        (data.drop (QuicPacketHeader.sizeB + QuicFrameHeader.sizeB))
      return handle_stream header.packet_number f s

/-- Failure modes of `QuicConnection.connect_to`: the explicit
`RuntimeError("Failed to connect to the server")` raises, and the uncaught
`ValueError` a malformed reply's decode raises. -/
inductive ConnectError where
  | runtimeError
  | valueError
deriving DecidableEq, Repr

/-- Map a decode failure to the `ValueError` that propagates out of
`connect_to` (no `try`/`except` surrounds the `from_bytes` calls there). -/
def liftDecode {α : Type} : Except DecodeErr α → Except ConnectError α
  | .ok a => .ok a
  | .error _ => .error .valueError

/-- `QuicConnection.connect_to`, as a function of the sequence of datagrams
the server will ever deliver.  The client sends its `Initial` + ACK, then
performs exactly one blocking `sock.recv` with no timeout and no retry: an
empty reply sequence means that call never returns (`none`).  On a reply it
validates header, frame header and ACK, raising `RuntimeError` on any
mismatch; then it sends its final `Initial(1)` + ACK — rebinding the local
`ack` variable to that outgoing frame — and builds the connection from
`ack.window_size`, i.e. from its own `RECEIVE_SIZE`, with
`packet_number = 2`. -/
def connect_to (replies : List (List Nat)) : Option (Except ConnectError ConnState) :=
  match replies with
  | [] => none
  | data :: _ =>
    some (do
      if data = [] then throw .runtimeError
      let header ← liftDecode (QuicPacketHeader.from_bytes data)
      if header.packet_type ≠ .Initial then throw .runtimeError
      let fh ← liftDecode (QuicFrameHeader.from_bytes (data.drop QuicPacketHeader.sizeB))
      if fh.frame_type ≠ .Ack then throw .runtimeError
      let ack ← liftDecode (QuicAckFrame.from_bytes
        (data.drop (QuicPacketHeader.sizeB + QuicFrameHeader.sizeB)))
      if ack.packet_number ≠ header.packet_number then throw .runtimeError
      let ack : QuicAckFrame := ⟨1, RECEIVE_SIZE⟩
      pure (initConn ack.window_size 2))

/-- The operations that mutate a live connection's state: an incoming ACK
(`handle_ack`), one sender-loop iteration at a given clock reading, an
incoming stream frame (`handle_stream`), a caller's `send`, a caller's `recv`
scan, and `close` raising the closing flag. -/
inductive ConnOp where
  | ack (a : QuicAckFrame)
  | iter (now : ℚ)
  | stream (pn : Nat) (f : QuicStreamFrame)
  | send (sid : Nat) (data : List Nat)
  | recvScan
  | closeConn
deriving Repr

/-- Apply one operation to the connection state. -/
def applyOp (s : ConnState) : ConnOp → ConnState
  | .ack a => handle_ack a s
  | .iter now => sender_iteration now s
  | .stream pn f => handle_stream pn f s
  | .send sid d => sendOnStream sid d s
  | .recvScan =>
    match recvStep s.recv_buffer with
    | some r => { s with recv_buffer := r.2.2 }
    | none => s
  | .closeConn => { s with is_closed := true }

/-- Run a sequence of operations from a given state. -/
def runOps (s : ConnState) (ops : List ConnOp) : ConnState :=
  ops.foldl applyOp s

/-- All frames still queued in `send_buffer`, in stream then queue order. -/
def pendingFrames (s : ConnState) : List QuicStreamFrame :=
  (s.send_buffer.map Prod.snd).flatten

/-- The frames held by the entries of `sender_window`. -/
def windowFrames (s : ConnState) : List QuicStreamFrame :=
  s.sender_window.map SenderWindowEntry.frame

/-! ## Codec round-trip lemmas -/

theorem take_all_beBytes (w n : Nat) : (beBytes w n).take w = beBytes w n :=
  List.take_of_length_le (le_of_eq (beBytes_length w n))

theorem beBytes_one (n : Nat) : beBytes 1 n = [n % 256] := rfl

theorem ph_roundtrip (h : QuicPacketHeader) (hp : h.packet_number < 2 ^ 32) :
    QuicPacketHeader.from_bytes h.to_bytes = .ok h := by
  obtain ⟨t, pn⟩ := h
  have hpn : pn < 256 ^ 4 := by norm_num at hp ⊢; exact hp
  have henc : QuicPacketHeader.to_bytes ⟨t, pn⟩ =
      t.val % 256 :: 0 :: 0 :: 0 :: beBytes 4 pn := by
    simp [QuicPacketHeader.to_bytes, beBytes_one]
  have hdrop : ∀ x : Nat, (x :: 0 :: 0 :: 0 :: beBytes 4 pn).drop 4 = beBytes 4 pn :=
    fun _ => rfl
  have hlen : ∀ x : Nat, (x :: 0 :: 0 :: 0 :: beBytes 4 pn).length = 8 := by
    simp [beBytes_length]
  cases t <;>
    simp [henc, QuicPacketHeader.from_bytes, QuicPacketHeader.sizeB, QuicPacketType.val,
      hlen, hdrop, take_all_beBytes, beVal_beBytes 4 pn hpn]

theorem fh_roundtrip (h : QuicFrameHeader) :
    QuicFrameHeader.from_bytes h.to_bytes = .ok h := by
  obtain ⟨t⟩ := h
  cases t <;>
    simp [QuicFrameHeader.to_bytes, QuicFrameHeader.from_bytes, QuicFrameHeader.sizeB,
      QuicFrameType.val, beBytes]

theorem ack_roundtrip (a : QuicAckFrame) (h1 : a.packet_number < 2 ^ 32)
    (h2 : a.window_size < 2 ^ 32) :
    QuicAckFrame.from_bytes a.to_bytes = .ok a := by
  obtain ⟨pn, ws⟩ := a
  norm_num at h1 h2
  simp [QuicAckFrame.to_bytes, QuicAckFrame.from_bytes, QuicAckFrame.sizeB,
    beBytes_length, take_beBytes_append, drop_beBytes_append, take_all_beBytes,
    beVal_beBytes 4 pn h1, beVal_beBytes 4 ws h2]

theorem sf_roundtrip (f : QuicStreamFrame) (h1 : f.stream_id < 2 ^ 32)
    (h2 : f.offset < 2 ^ 64) (h3 : f.length < 2 ^ 16) (h4 : f.finished < 2 ^ 8) :
    QuicStreamFrame.from_bytes f.to_bytes = .ok f := by
  obtain ⟨sid, off, len, fin, d⟩ := f
  norm_num at h1 h2 h3 h4
  have hlen : (QuicStreamFrame.to_bytes ⟨sid, off, len, fin, d⟩).length = 24 + d.length := by
    simp [QuicStreamFrame.to_bytes, beBytes_length]
    omega
  have hd8 : (QuicStreamFrame.to_bytes ⟨sid, off, len, fin, d⟩).drop 8 =
      beBytes 8 off ++ beBytes 2 len ++ beBytes 1 fin ++ [0, 0, 0, 0, 0] ++ d := by
    rw [show (8 : Nat) = 4 + 4 from rfl, ← List.drop_drop]
    simp only [QuicStreamFrame.to_bytes, List.append_assoc, drop_beBytes_append]
    simp [List.drop]
  have hd16 : (QuicStreamFrame.to_bytes ⟨sid, off, len, fin, d⟩).drop 16 =
      beBytes 2 len ++ beBytes 1 fin ++ [0, 0, 0, 0, 0] ++ d := by
    rw [show (16 : Nat) = 8 + 8 from rfl, ← List.drop_drop, hd8]
    simp only [List.append_assoc, drop_beBytes_append]
  have hd18 : (QuicStreamFrame.to_bytes ⟨sid, off, len, fin, d⟩).drop 18 =
      beBytes 1 fin ++ [0, 0, 0, 0, 0] ++ d := by
    rw [show (18 : Nat) = 16 + 2 from rfl, ← List.drop_drop, hd16]
    simp only [List.append_assoc, drop_beBytes_append]
  have hd24 : (QuicStreamFrame.to_bytes ⟨sid, off, len, fin, d⟩).drop 24 = d := by
    rw [show (24 : Nat) = 18 + 6 from rfl, ← List.drop_drop, hd18]
    simp [beBytes, List.drop]
  simp only [QuicStreamFrame.from_bytes, hlen, hd8, hd16, hd18, hd24]
  rw [if_neg (by simp only [QuicStreamFrame.sizeB]; omega)]
  simp only [QuicStreamFrame.to_bytes, List.append_assoc, take_beBytes_append]
  simp [beVal_beBytes 4 sid h1, beVal_beBytes 8 off h2, beVal_beBytes 2 len h3,
    beVal_beBytes 1 fin h4]

/-- C2: for each of the four wire structs, decoding the fixed-width big-endian
encoding returns the original value whenever every field is within its
declared width (including the boundary values offset 0, length 0 and a
finished frame with empty payload). -/
theorem wire_roundtrip (ph : QuicPacketHeader) (fh : QuicFrameHeader)
    (af : QuicAckFrame) (sf : QuicStreamFrame)
    (h1 : ph.packet_number < 2 ^ 32) (h2 : af.packet_number < 2 ^ 32)
    (h3 : af.window_size < 2 ^ 32) (h4 : sf.stream_id < 2 ^ 32)
    (h5 : sf.offset < 2 ^ 64) (h6 : sf.length < 2 ^ 16) (h7 : sf.finished < 2 ^ 8) :
    QuicPacketHeader.from_bytes ph.to_bytes = .ok ph ∧
    QuicFrameHeader.from_bytes fh.to_bytes = .ok fh ∧
    QuicAckFrame.from_bytes af.to_bytes = .ok af ∧
    QuicStreamFrame.from_bytes sf.to_bytes = .ok sf :=
  ⟨ph_roundtrip ph h1, fh_roundtrip fh, ack_roundtrip af h2 h3,
    sf_roundtrip sf h4 h5 h6 h7⟩

/-- Witness for C2 at the boundary values: packet number 0, ACK fields 0, and
a finished stream frame with offset 0, length 0 and empty payload. -/
theorem wire_roundtrip_witness :
    (0 : Nat) < 2 ^ 32 ∧ (1 : Nat) < 2 ^ 8 ∧
    QuicPacketHeader.from_bytes (QuicPacketHeader.to_bytes ⟨.Initial, 0⟩) =
      .ok ⟨.Initial, 0⟩ ∧
    QuicFrameHeader.from_bytes (QuicFrameHeader.to_bytes ⟨.Stream⟩) = .ok ⟨.Stream⟩ ∧
    QuicAckFrame.from_bytes (QuicAckFrame.to_bytes ⟨0, 0⟩) = .ok ⟨0, 0⟩ ∧
    QuicStreamFrame.from_bytes (QuicStreamFrame.to_bytes ⟨0, 0, 0, 1, []⟩) =
      .ok ⟨0, 0, 0, 1, []⟩ := by
  refine ⟨by norm_num, by norm_num, ?_⟩
  have h := wire_roundtrip ⟨.Initial, 0⟩ ⟨.Stream⟩ ⟨0, 0⟩ ⟨0, 0, 0, 1, []⟩
    (by norm_num) (by norm_num) (by norm_num) (by norm_num) (by norm_num)
    (by norm_num) (by norm_num)
  exact ⟨h.1, h.2.1, h.2.2.1, h.2.2.2⟩

instance {ε α : Type} [DecidableEq ε] [DecidableEq α] : DecidableEq (Except ε α) :=
  fun x y =>
    match x, y with
    | .ok a, .ok b =>
      if h : a = b then .isTrue (by rw [h])
      else .isFalse (by intro hc; cases hc; exact h rfl)
    | .error a, .error b =>
      if h : a = b then .isTrue (by rw [h])
      else .isFalse (by intro hc; cases hc; exact h rfl)
    | .ok _, .error _ => .isFalse (by intro hc; cases hc)
    | .error _, .ok _ => .isFalse (by intro hc; cases hc)

/-! ## Decode failure and payload slicing -/

/-- C8 (amended): the payload a decoded stream frame carries is the entire
remainder of the buffer after the 24-byte fixed part (`data[size():]`); the
`length` field plays no role in slicing it. -/
theorem stream_payload_is_remainder (buf : List Nat)
    (h : QuicStreamFrame.sizeB ≤ buf.length) :
    Except.map QuicStreamFrame.data (QuicStreamFrame.from_bytes buf) =
      .ok (buf.drop 24) := by
  simp only [QuicStreamFrame.sizeB] at h
  simp only [QuicStreamFrame.from_bytes, QuicStreamFrame.sizeB]
  rw [if_neg (by omega)]
  rfl

/-- A 27-byte stream-frame buffer whose `length` field reads 1 while 3 payload
bytes follow the fixed part. -/
def c8buf : List Nat :=
  [0, 0, 0, 0, 0, 0, 0, 0, 0, 0, 0, 0, 0, 0, 0, 0, 0, 1, 0, 0, 0, 0, 0, 0, 10, 20, 30]

/-- Witness for C8 on `c8buf`. -/
theorem stream_payload_is_remainder_witness :
    QuicStreamFrame.sizeB ≤ c8buf.length ∧
    Except.map QuicStreamFrame.data (QuicStreamFrame.from_bytes c8buf) =
      .ok (c8buf.drop 24) :=
  ⟨by decide, stream_payload_is_remainder c8buf (by decide)⟩

/-- C8 counterexample: on `c8buf` the decoded frame's `length` field is 1 but
its decoded payload holds 3 bytes, so the payload is not `length` bytes. -/
theorem stream_decode_ignores_length_field :
    Except.map (fun f => (f.length, f.data.length)) (QuicStreamFrame.from_bytes c8buf) =
      .ok (1, 3) := by decide

theorem getD_zero_drop (l : List Nat) (n : Nat) : (l.drop n).getD 0 0 = l.getD n 0 := by
  induction n generalizing l with
  | zero => rfl
  | succ n ih =>
    cases l with
    | nil => rfl
    | cons x xs => exact ih xs

/-- C7 (amended): decoding a buffer shorter than a struct's fixed size fails
with the modelled `ValueError` for every one of the four structs (and, the
decoders being total functions over the byte list, nothing is read out of
bounds); but a receiver-loop iteration fed a truncated datagram propagates
the error — no handler catches it, so the receiver thread terminates instead
of dropping the packet and continuing.  The fatality covers every truncation
point: a non-empty datagram shorter than the 8-byte packet header, a OneRTT
datagram cut at exactly the packet header, and a OneRTT ACK (resp. stream)
datagram cut anywhere before its full 17-byte (resp. 33-byte) header. -/
theorem decode_short_buffer_errors :
    (∀ b : List Nat, b.length < QuicPacketHeader.sizeB →
      QuicPacketHeader.from_bytes b = .error .bufferTooSmall) ∧
    (∀ b : List Nat, b.length < QuicFrameHeader.sizeB →
      QuicFrameHeader.from_bytes b = .error .bufferTooSmall) ∧
    (∀ b : List Nat, b.length < QuicAckFrame.sizeB →
      QuicAckFrame.from_bytes b = .error .bufferTooSmall) ∧
    (∀ b : List Nat, b.length < QuicStreamFrame.sizeB →
      QuicStreamFrame.from_bytes b = .error .bufferTooSmall) ∧
    (∀ (s : ConnState) (b : List Nat), b ≠ [] → b.length < QuicPacketHeader.sizeB →
      receiverStep s b = .error .bufferTooSmall) ∧
    (∀ (s : ConnState) (b : List Nat), b.getD 0 0 = 2 →
      QuicPacketHeader.sizeB ≤ b.length →
      b.length < QuicPacketHeader.sizeB + QuicFrameHeader.sizeB →
      receiverStep s b = .error .bufferTooSmall) ∧
    (∀ (s : ConnState) (b : List Nat), b.getD 0 0 = 2 → b.getD 8 0 = 1 →
      QuicPacketHeader.sizeB + QuicFrameHeader.sizeB ≤ b.length →
      b.length < QuicPacketHeader.sizeB + QuicFrameHeader.sizeB + QuicAckFrame.sizeB →
      receiverStep s b = .error .bufferTooSmall) ∧
    (∀ (s : ConnState) (b : List Nat), b.getD 0 0 = 2 → b.getD 8 0 = 2 →
      QuicPacketHeader.sizeB + QuicFrameHeader.sizeB ≤ b.length →
      b.length < QuicPacketHeader.sizeB + QuicFrameHeader.sizeB + QuicStreamFrame.sizeB →
      receiverStep s b = .error .bufferTooSmall) := by
  refine ⟨?_, ?_, ?_, ?_, ?_, ?_, ?_, ?_⟩
  · intro b h
    simp only [QuicPacketHeader.from_bytes]
    rw [if_pos h]
  · intro b h
    simp only [QuicFrameHeader.from_bytes]
    rw [if_pos h]
  · intro b h
    simp only [QuicAckFrame.from_bytes]
    rw [if_pos h]
  · intro b h
    simp only [QuicStreamFrame.from_bytes]
    rw [if_pos h]
  · intro s b hne h
    have hph : QuicPacketHeader.from_bytes b = .error .bufferTooSmall := by
      simp only [QuicPacketHeader.from_bytes]
      rw [if_pos h]
    simp [receiverStep, hne, hph, Except.bind, bind]
  · intro s b h0 hge hlt
    have hlen : b.length = 8 := by
      simp only [QuicPacketHeader.sizeB, QuicFrameHeader.sizeB] at hge hlt
      omega
    have hne : b ≠ [] := by
      intro hc
      rw [hc] at hlen
      simp at hlen
    have hph : QuicPacketHeader.from_bytes b =
        .ok ⟨.OneRTT, beVal ((b.drop 4).take 4)⟩ := by
      simp only [QuicPacketHeader.from_bytes, h0]
      rw [if_neg (by simp only [QuicPacketHeader.sizeB]; omega), if_neg (by norm_num),
        if_pos trivial]
    have hfh : QuicFrameHeader.from_bytes (b.drop QuicPacketHeader.sizeB) =
        .error .bufferTooSmall := by
      simp only [QuicFrameHeader.from_bytes]
      rw [if_pos (by
        simp only [List.length_drop, hlen, QuicPacketHeader.sizeB, QuicFrameHeader.sizeB]
        omega)]
    simp [receiverStep, hne, hph, hfh, Except.bind, bind, pure, Except.pure]
  · intro s b h0 h8 hge hlt
    have hge9 : 9 ≤ b.length := by
      simp only [QuicPacketHeader.sizeB, QuicFrameHeader.sizeB] at hge
      omega
    have hne : b ≠ [] := by
      intro hc
      rw [hc] at hge9
      simp at hge9
    have hph : QuicPacketHeader.from_bytes b =
        .ok ⟨.OneRTT, beVal ((b.drop 4).take 4)⟩ := by
      simp only [QuicPacketHeader.from_bytes, h0]
      rw [if_neg (by simp only [QuicPacketHeader.sizeB]; omega), if_neg (by norm_num),
        if_pos trivial]
    have hfh : QuicFrameHeader.from_bytes (b.drop QuicPacketHeader.sizeB) =
        .ok ⟨.Ack⟩ := by
      have hd : (b.drop QuicPacketHeader.sizeB).getD 0 0 = 1 := by
        rw [getD_zero_drop]
        exact h8
      simp only [QuicFrameHeader.from_bytes, hd]
      rw [if_neg (by
        simp only [List.length_drop, QuicPacketHeader.sizeB, QuicFrameHeader.sizeB]
        omega), if_pos trivial]
    have hack : QuicAckFrame.from_bytes
        (b.drop (QuicPacketHeader.sizeB + QuicFrameHeader.sizeB)) =
        .error .bufferTooSmall := by
      simp only [QuicAckFrame.from_bytes]
      rw [if_pos (by
        simp only [QuicPacketHeader.sizeB, QuicFrameHeader.sizeB, QuicAckFrame.sizeB]
          at hlt ⊢
        simp only [List.length_drop]
        omega)]
    simp [receiverStep, hne, hph, hfh, hack, Except.bind, bind, pure, Except.pure]
  · intro s b h0 h8 hge hlt
    have hge9 : 9 ≤ b.length := by
      simp only [QuicPacketHeader.sizeB, QuicFrameHeader.sizeB] at hge
      omega
    have hne : b ≠ [] := by
      intro hc
      rw [hc] at hge9
      simp at hge9
    have hph : QuicPacketHeader.from_bytes b =
        .ok ⟨.OneRTT, beVal ((b.drop 4).take 4)⟩ := by
      simp only [QuicPacketHeader.from_bytes, h0]
      rw [if_neg (by simp only [QuicPacketHeader.sizeB]; omega), if_neg (by norm_num),
        if_pos trivial]
    have hfh : QuicFrameHeader.from_bytes (b.drop QuicPacketHeader.sizeB) =
        .ok ⟨.Stream⟩ := by
      have hd : (b.drop QuicPacketHeader.sizeB).getD 0 0 = 2 := by
        rw [getD_zero_drop]
        exact h8
      simp only [QuicFrameHeader.from_bytes, hd]
      rw [if_neg (by
        simp only [List.length_drop, QuicPacketHeader.sizeB, QuicFrameHeader.sizeB]
        omega), if_neg (by norm_num), if_pos trivial]
    have hsf : QuicStreamFrame.from_bytes
        (b.drop (QuicPacketHeader.sizeB + QuicFrameHeader.sizeB)) =
        .error .bufferTooSmall := by
      simp only [QuicStreamFrame.from_bytes]
      rw [if_pos (by
        simp only [QuicPacketHeader.sizeB, QuicFrameHeader.sizeB, QuicStreamFrame.sizeB]
          at hlt ⊢
        simp only [List.length_drop]
        omega)]
    simp [receiverStep, hne, hph, hfh, hsf, Except.bind, bind, pure, Except.pure]

/-- Witness for C7: the empty buffer against the frame header, a one-byte
datagram, an 8-byte OneRTT datagram with no frame header, and a 20-byte
OneRTT stream datagram whose fixed header is truncated — each decode fails
and each datagram is fatal to the receiver iteration. -/
theorem decode_short_buffer_errors_witness :
    ([] : List Nat).length < QuicFrameHeader.sizeB ∧
    ([1] : List Nat) ≠ [] ∧ ([1] : List Nat).length < QuicPacketHeader.sizeB ∧
    QuicFrameHeader.from_bytes [] = .error .bufferTooSmall ∧
    receiverStep (initConn 650 2) [1] = .error .bufferTooSmall ∧
    receiverStep (initConn 650 2) [2, 0, 0, 0, 0, 0, 0, 7] = .error .bufferTooSmall ∧
    receiverStep (initConn 650 2)
      [2, 0, 0, 0, 0, 0, 0, 7, 2, 0, 0, 0, 0, 0, 0, 0, 0, 0, 0, 0] =
      .error .bufferTooSmall := by
  refine ⟨by decide, by decide, by decide, ?_, ?_, ?_, ?_⟩
  · exact decode_short_buffer_errors.2.1 [] (by decide)
  · exact decode_short_buffer_errors.2.2.2.2.1 (initConn 650 2) [1] (by decide) (by decide)
  · exact decode_short_buffer_errors.2.2.2.2.2.1 (initConn 650 2) _ (by decide) (by decide)
      (by decide)
  · exact decode_short_buffer_errors.2.2.2.2.2.2.2 (initConn 650 2) _ (by decide)
      (by decide) (by decide) (by decide)

/-- C7 counterexample: on the truncated datagram `[1]` the receiver iteration
does not return an unchanged state with the packet dropped — it propagates
the decode error, which in `receiver_thread` is uncaught and fatal to the
thread. -/
theorem receiver_short_datagram_not_dropped :
    receiverStep (initConn 650 2) [1] = .error .bufferTooSmall ∧
    receiverStep (initConn 650 2) [1] ≠ .ok (initConn 650 2) := by decide

/-! ## Handshake -/

/-- C3: `connect_to` makes exactly one blocking receive attempt: with no
reply it never returns (it blocks in `sock.recv`, which has no timeout), and
any replies after the first are never consulted — there is no retry loop
(`RETRY_COUNT` is defined in the module but unused). -/
theorem connect_to_single_blocking_attempt :
    connect_to [] = none ∧ ∀ r rest, connect_to (r :: rest) = connect_to [r] :=
  ⟨rfl, fun _ _ => rfl⟩

/-! ## Reassembly -/

/-- Two frames of stream 7 arriving out of order whose offset ranges
`[10,12)` and `[0,3)` leave the gap `[3,10)` uncovered; the second frame is
marked finished. -/
def gapFrames : List QuicStreamFrame :=
  [⟨7, 10, 2, 1, [4, 5]⟩, ⟨7, 0, 3, 0, [1, 2, 3]⟩]

/-- C1 (bug evaluation): the sorted frames of `gapFrames` have a gap, yet the
`recv` scan reports stream 7 complete, returns the concatenation across the
gap, and deletes the stream — because the contiguity loop's `break` exits
only the scan and its outcome is never consulted. -/
theorem recv_reports_gapped_stream_complete :
    hasGap (sortFrames gapFrames) = true ∧
    recvStep [(7, gapFrames)] = some (7, [1, 2, 3, 4, 5], []) := by decide

/-! ## ACK handling -/

theorem removeFirstEntry_none (pn : Nat) (w : List SenderWindowEntry)
    (h : ∀ e ∈ w, e.packet_number ≠ pn) : removeFirstEntry pn w = none := by
  induction w with
  | nil => rfl
  | cons e es ih =>
    simp only [removeFirstEntry]
    rw [if_neg (h e (List.mem_cons_self e es)),
      ih (fun e' he' => h e' (List.mem_cons_of_mem e he'))]
    rfl

theorem removeFirstEntry_some_not_mem (pn : Nat) (w : List SenderWindowEntry) :
    ∀ w', (w.map SenderWindowEntry.packet_number).Nodup →
      removeFirstEntry pn w = some w' → ∀ e ∈ w', e.packet_number ≠ pn := by
  induction w with
  | nil => intro w' _ h; simp [removeFirstEntry] at h
  | cons e es ih =>
    intro w' hnd h
    simp only [List.map_cons, List.nodup_cons] at hnd
    simp only [removeFirstEntry] at h
    by_cases he : e.packet_number = pn
    · rw [if_pos he] at h
      injection h with h
      subst h
      intro e' he' hc
      have hm : e'.packet_number ∈ es.map SenderWindowEntry.packet_number :=
        List.mem_map_of_mem _ he'
      rw [hc, ← he] at hm
      exact hnd.1 hm
    · rw [if_neg he] at h
      cases hr : removeFirstEntry pn es with
      | none => rw [hr] at h; exact absurd h (by simp)
      | some es' =>
        rw [hr] at h
        simp only [Option.map_some'] at h
        injection h with h
        subst h
        intro e'' he''
        rcases List.mem_cons.mp he'' with rfl | hmem
        · exact he
        · exact ih es' hnd.2 hr e'' hmem

theorem handle_ack_noop (a : QuicAckFrame) (t : ConnState)
    (h : removeFirstEntry a.packet_number t.sender_window = none) :
    handle_ack a t = t := by
  simp [handle_ack, h]

/-- C6: applying an ACK whose packet number is absent from `sender_window`
leaves the whole connection state unchanged; and as long as the window's
packet numbers are distinct (which monotone numbering gives), applying the
same ACK twice equals applying it once — the entry is removed and the window
grown only on the first application. -/
theorem ack_application_noop_and_idempotent (s : ConnState) (a : QuicAckFrame) :
    ((∀ e ∈ s.sender_window, e.packet_number ≠ a.packet_number) → handle_ack a s = s) ∧
    ((s.sender_window.map SenderWindowEntry.packet_number).Nodup →
      handle_ack a (handle_ack a s) = handle_ack a s) := by
  constructor
  · intro h
    exact handle_ack_noop a s (removeFirstEntry_none _ _ h)
  · intro hnd
    cases hr : removeFirstEntry a.packet_number s.sender_window with
    | none =>
      rw [handle_ack_noop a s hr, handle_ack_noop a s hr]
    | some w' =>
      have hmem := removeFirstEntry_some_not_mem a.packet_number s.sender_window w' hnd hr
      have hwin : (handle_ack a s).sender_window = w' := by simp [handle_ack, hr]
      exact handle_ack_noop a (handle_ack a s) (hwin ▸ removeFirstEntry_none _ _ hmem)

/-- A connection whose sender window holds packets 5 and 6. -/
def c6state : ConnState :=
  { initConn 650 2 with
    sender_window := [⟨5, ⟨1, 0, 1, 1, [9]⟩, 0⟩, ⟨6, ⟨1, 1, 1, 1, [8]⟩, 0⟩] }

/-- Witness for C6: an ACK for the absent packet 7 is a no-op, and the ACK
for packet 5 is idempotent. -/
theorem ack_application_noop_and_idempotent_witness :
    (∀ e ∈ c6state.sender_window, e.packet_number ≠ (7 : Nat)) ∧
    (c6state.sender_window.map SenderWindowEntry.packet_number).Nodup ∧
    handle_ack ⟨7, 650⟩ c6state = c6state ∧
    handle_ack ⟨5, 650⟩ (handle_ack ⟨5, 650⟩ c6state) = handle_ack ⟨5, 650⟩ c6state :=
  ⟨by decide, by decide,
    (ack_application_noop_and_idempotent c6state ⟨7, 650⟩).1 (by decide),
    (ack_application_noop_and_idempotent c6state ⟨5, 650⟩).2 (by decide)⟩

/-! ## Sender-iteration stage lemmas -/

theorem admitFrames_preserves (fuel : Nat) (s : ConnState) :
    (admitFrames fuel s).sender_window_size = s.sender_window_size ∧
    (admitFrames fuel s).exponential_growth = s.exponential_growth ∧
    (admitFrames fuel s).max_window_size = s.max_window_size ∧
    (admitFrames fuel s).ack_list = s.ack_list ∧
    (admitFrames fuel s).is_closed = s.is_closed ∧
    (admitFrames fuel s).sent = s.sent := by
  induction fuel generalizing s with
  | zero => exact ⟨rfl, rfl, rfl, rfl, rfl, rfl⟩
  | succ fuel ih =>
    simp only [admitFrames]
    split
    · split
      · exact ih _
      · exact ⟨rfl, rfl, rfl, rfl, rfl, rfl⟩
    · exact ⟨rfl, rfl, rfl, rfl, rfl, rfl⟩

theorem admitPassGo_win_mono (buf : List (Nat × List QuicStreamFrame)) :
    ∀ win wsize pn has, ∀ e ∈ win, e ∈ (admitPassGo buf win wsize pn has).win := by
  induction buf with
  | nil => intro win wsize pn has e he; exact he
  | cons p rest ih =>
    obtain ⟨sid, q⟩ := p
    cases q with
    | nil =>
      intro win wsize pn has e he
      simp only [admitPassGo]
      exact ih win wsize pn has e he
    | cons f fs =>
      intro win wsize pn has e he
      simp only [admitPassGo]
      split
      · exact he
      · exact ih _ wsize (pn + 1) true e (List.mem_append_left _ he)

theorem admitPassGo_win_src (buf : List (Nat × List QuicStreamFrame)) :
    ∀ win wsize pn has, ∀ e ∈ (admitPassGo buf win wsize pn has).win,
      e ∈ win ∨ e.sent_time = 0 := by
  induction buf with
  | nil => intro win wsize pn has e he; exact Or.inl he
  | cons p rest ih =>
    obtain ⟨sid, q⟩ := p
    cases q with
    | nil =>
      intro win wsize pn has e he
      simp only [admitPassGo] at he
      exact ih win wsize pn has e he
    | cons f fs =>
      intro win wsize pn has e he
      simp only [admitPassGo] at he
      split at he
      · exact Or.inl he
      · rcases ih _ wsize (pn + 1) true e he with hin | hz
        · rcases List.mem_append.mp hin with hw | hnew
          · exact Or.inl hw
          · right
            have : e = ⟨pn, f, 0⟩ := by simpa using hnew
            rw [this]
        · exact Or.inr hz

theorem admitFrames_win_mono (fuel : Nat) (s : ConnState) :
    ∀ e ∈ s.sender_window, e ∈ (admitFrames fuel s).sender_window := by
  induction fuel generalizing s with
  | zero => intro e he; exact he
  | succ fuel ih =>
    intro e he
    simp only [admitFrames]
    split
    · split
      · exact ih _ e (admitPassGo_win_mono _ _ _ _ _ e he)
      · exact admitPassGo_win_mono _ _ _ _ _ e he
    · exact he

theorem admitFrames_win_src (fuel : Nat) (s : ConnState) :
    ∀ e ∈ (admitFrames fuel s).sender_window, e ∈ s.sender_window ∨ e.sent_time = 0 := by
  induction fuel generalizing s with
  | zero => intro e he; exact Or.inl he
  | succ fuel ih =>
    intro e he
    simp only [admitFrames] at he
    split at he
    · split at he
      · rcases ih _ e he with hmid | hz
        · exact admitPassGo_win_src _ _ _ _ _ e hmid
        · exact Or.inr hz
      · exact admitPassGo_win_src _ _ _ _ _ e he
    · exact Or.inl he

theorem flushAcksGo_preserves (l : List QuicAckFrame) (s : ConnState) :
    (flushAcksGo l s).sender_window_size = s.sender_window_size ∧
    (flushAcksGo l s).exponential_growth = s.exponential_growth ∧
    (flushAcksGo l s).max_window_size = s.max_window_size ∧
    (flushAcksGo l s).sender_window = s.sender_window ∧
    (flushAcksGo l s).send_buffer = s.send_buffer ∧
    (flushAcksGo l s).is_closed = s.is_closed := by
  induction l generalizing s with
  | nil => exact ⟨rfl, rfl, rfl, rfl, rfl, rfl⟩
  | cons a rest ih => exact ih _

theorem sender_iteration_sws_eg (now : ℚ) (s : ConnState) :
    (hasLoss now (admitFrames (totalPending s + 1) s) = true →
      (sender_iteration now s).sender_window_size = max 1 (s.sender_window_size / 2) ∧
      (sender_iteration now s).exponential_growth = false) ∧
    (hasLoss now (admitFrames (totalPending s + 1) s) = false →
      (sender_iteration now s).sender_window_size = s.sender_window_size ∧
      (sender_iteration now s).exponential_growth = s.exponential_growth) := by
  have hsws₁ := (admitFrames_preserves (totalPending s + 1) s).1
  have heg₁ := (admitFrames_preserves (totalPending s + 1) s).2.1
  constructor
  · intro hl
    simp only [sender_iteration, hl, if_true, flushAcks]
    refine ⟨?_, ?_⟩
    · rw [(flushAcksGo_preserves _ _).1]
      simp only [resendTimedOut]
      rw [hsws₁]
    · rw [(flushAcksGo_preserves _ _).2.1]
  · intro hl
    simp only [sender_iteration, hl, if_false, Bool.false_eq_true, flushAcks]
    refine ⟨?_, ?_⟩
    · rw [(flushAcksGo_preserves _ _).1]
      simp only [resendTimedOut]
      rw [hsws₁]
    · rw [(flushAcksGo_preserves _ _).2.1]
      simp only [resendTimedOut]
      rw [heg₁]

theorem applyOp_eg_false (s : ConnState) (h : s.exponential_growth = false) :
    ∀ op : ConnOp, (applyOp s op).exponential_growth = false := by
  intro op
  cases op with
  | ack a =>
    simp only [applyOp, handle_ack]
    cases hr : removeFirstEntry a.packet_number s.sender_window with
    | none => simp only [hr]; exact h
    | some w =>
      simp only [hr]
      simp [h]
  | iter now =>
    simp only [applyOp]
    cases hl : hasLoss now (admitFrames (totalPending s + 1) s) with
    | true => exact ((sender_iteration_sws_eg now s).1 hl).2
    | false => rw [((sender_iteration_sws_eg now s).2 hl).2]; exact h
  | stream pn f => exact h
  | send sid d => exact h
  | recvScan =>
    cases hr : recvStep s.recv_buffer with
    | some r => simp only [applyOp, hr]; exact h
    | none => simp only [applyOp, hr]; exact h
  | closeConn => exact h

/-- C5: when the retransmission timer (`TIMEOUT = 1.0s`) fires on a window
entry that was sent at least once before (`sent_time ≠ 0`), the sender-loop
iteration treats it as a loss: the window size becomes
`max 1 (previous / 2)`, slow start turns off, and every later operation
keeps slow start off.  When only never-sent entries (or no timed-out
entries) are in the window — in particular on every first transmission —
the iteration changes neither the window size nor the growth mode. -/
theorem retransmission_loss_halves_window (s : ConnState) (now : ℚ) :
    ((∃ e ∈ s.sender_window, e.sent_time ≠ 0 ∧ TIMEOUT < now - e.sent_time) →
      (sender_iteration now s).sender_window_size = max 1 (s.sender_window_size / 2) ∧
      (sender_iteration now s).exponential_growth = false) ∧
    ((∀ e ∈ s.sender_window, e.sent_time = 0 ∨ now - e.sent_time ≤ TIMEOUT) →
      (sender_iteration now s).sender_window_size = s.sender_window_size ∧
      (sender_iteration now s).exponential_growth = s.exponential_growth) ∧
    (s.exponential_growth = false →
      ∀ op : ConnOp, (applyOp s op).exponential_growth = false) := by
  refine ⟨?_, ?_, applyOp_eg_false s⟩
  · rintro ⟨e, he, hne, ht⟩
    have hl : hasLoss now (admitFrames (totalPending s + 1) s) = true := by
      unfold hasLoss
      rw [List.any_eq_true]
      refine ⟨e, admitFrames_win_mono _ s e he, ?_⟩
      simp [ht, hne]
    exact (sender_iteration_sws_eg now s).1 hl
  · intro hq
    have hl : hasLoss now (admitFrames (totalPending s + 1) s) = false := by
      unfold hasLoss
      rw [List.any_eq_false]
      intro e he
      rcases admitFrames_win_src _ s e he with hin | hz
      · rcases hq e hin with hz' | hle
        · simp [hz']
        · simp [not_lt.mpr hle]
      · simp [hz]
    exact (sender_iteration_sws_eg now s).2 hl

/-- A connection whose only window entry (packet 2) was last sent at time 2. -/
def c5state : ConnState :=
  { initConn 650 2 with sender_window := [⟨2, ⟨1, 0, 1, 1, [9]⟩, 2⟩] }

/-- Witness for C5: at clock 4 the entry sent at time 2 is 2 seconds old,
past the 1-second timeout, so the iteration halves the window from 4 to 2
and turns slow start off. -/
theorem retransmission_loss_halves_window_witness :
    (∃ e ∈ c5state.sender_window, e.sent_time ≠ 0 ∧ TIMEOUT < (4 : ℚ) - e.sent_time) ∧
    (sender_iteration 4 c5state).sender_window_size =
      max 1 (c5state.sender_window_size / 2) ∧
    (sender_iteration 4 c5state).exponential_growth = false :=
  have hyp : ∃ e ∈ c5state.sender_window, e.sent_time ≠ 0 ∧ TIMEOUT < (4 : ℚ) - e.sent_time :=
    ⟨⟨2, ⟨1, 0, 1, 1, [9]⟩, 2⟩, by simp [c5state], by norm_num, by norm_num [TIMEOUT]⟩
  ⟨hyp, (retransmission_loss_halves_window c5state 4).1 hyp⟩

/-! ## Congestion-window bounds -/

theorem sender_iteration_max (now : ℚ) (s : ConnState) :
    (sender_iteration now s).max_window_size = s.max_window_size := by
  simp only [sender_iteration, flushAcks]
  rw [(flushAcksGo_preserves _ _).2.2.1]
  split
  · exact (admitFrames_preserves _ _).2.2.1
  · exact (admitFrames_preserves _ _).2.2.1

theorem applyOp_max (s : ConnState) (op : ConnOp) :
    (applyOp s op).max_window_size = s.max_window_size := by
  cases op with
  | ack a =>
    simp only [applyOp, handle_ack]
    cases hr : removeFirstEntry a.packet_number s.sender_window with
    | none => rfl
    | some w => simp only [hr]
  | iter now => exact sender_iteration_max now s
  | stream pn f => rfl
  | send sid d => rfl
  | recvScan =>
    cases hr : recvStep s.recv_buffer with
    | some r => simp only [applyOp, hr]
    | none => simp only [applyOp, hr]
  | closeConn => rfl

theorem applyOp_inv (s : ConnState) (op : ConnOp)
    (h1 : 1 ≤ s.sender_window_size) (h2 : s.sender_window_size ≤ s.max_window_size) :
    1 ≤ (applyOp s op).sender_window_size ∧
    (applyOp s op).sender_window_size ≤ (applyOp s op).max_window_size := by
  cases op with
  | ack a =>
    simp only [applyOp, handle_ack]
    cases hr : removeFirstEntry a.packet_number s.sender_window with
    | none => exact ⟨h1, h2⟩
    | some w =>
      simp only [hr]
      constructor
      · split_ifs <;> omega
      · split_ifs <;> omega
  | iter now =>
    simp only [applyOp]
    have hmax := sender_iteration_max now s
    cases hl : hasLoss now (admitFrames (totalPending s + 1) s) with
    | true =>
      have hs := ((sender_iteration_sws_eg now s).1 hl).1
      rw [hs, hmax]
      exact ⟨Nat.le_max_left 1 _,
        max_le (h1.trans h2) (le_trans (Nat.div_le_self _ 2) h2)⟩
    | false =>
      have hs := ((sender_iteration_sws_eg now s).2 hl).1
      rw [hs, hmax]
      exact ⟨h1, h2⟩
  | stream pn f => exact ⟨h1, h2⟩
  | send sid d => exact ⟨h1, h2⟩
  | recvScan =>
    cases hr : recvStep s.recv_buffer with
    | some r => simp only [applyOp, hr]; exact ⟨h1, h2⟩
    | none => simp only [applyOp, hr]; exact ⟨h1, h2⟩
  | closeConn => exact ⟨h1, h2⟩

theorem runOps_inv (ops : List ConnOp) : ∀ s : ConnState,
    1 ≤ s.sender_window_size → s.sender_window_size ≤ s.max_window_size →
    1 ≤ (runOps s ops).sender_window_size ∧
    (runOps s ops).sender_window_size ≤ (runOps s ops).max_window_size ∧
    (runOps s ops).max_window_size = s.max_window_size := by
  induction ops with
  | nil => intro s h1 h2; exact ⟨h1, h2, rfl⟩
  | cons op rest ih =>
    intro s h1 h2
    have hinv := applyOp_inv s op h1 h2
    have h := ih (applyOp s op) hinv.1 hinv.2
    exact ⟨h.1, h.2.1, h.2.2.trans (applyOp_max s op)⟩

/-- C4: from the state the handshake builds — both `accept_one` and
`connect_to` construct the connection with `max_window_size = RECEIVE_SIZE`,
the very window value each handshake peer advertises in its ACK — every
sequence of state-mutating operations (ACK application, sender iterations
with their loss halving and admission, incoming stream frames, sends,
receive scans, close) keeps `sender_window_size` between 1 and the
peer-advertised window, which `max_window_size` continues to record. -/
theorem congestion_window_bounds (pn : Nat) (ops : List ConnOp) :
    1 ≤ (runOps (initConn RECEIVE_SIZE pn) ops).sender_window_size ∧
    (runOps (initConn RECEIVE_SIZE pn) ops).sender_window_size ≤ RECEIVE_SIZE ∧
    (runOps (initConn RECEIVE_SIZE pn) ops).max_window_size = RECEIVE_SIZE := by
  have h := runOps_inv ops (initConn RECEIVE_SIZE pn)
    (by norm_num [initConn]) (by norm_num [initConn, RECEIVE_SIZE])
  have hm : (runOps (initConn RECEIVE_SIZE pn) ops).max_window_size = RECEIVE_SIZE := h.2.2
  refine ⟨h.1, ?_, hm⟩
  have h21 := h.2.1
  omega

/-! ## Close semantics: flushing pending ACKs -/

theorem flushAcksGo_acklist (l : List QuicAckFrame) : ∀ s : ConnState, s.ack_list = l →
    (flushAcksGo l s).ack_list = [] := by
  induction l with
  | nil => intro s h; exact h
  | cons a rest ih =>
    intro s h
    simp only [flushAcksGo]
    apply ih
    show py_remove a s.ack_list = rest
    rw [h]
    simp [py_remove]

theorem flushAcksGo_sent_mono (l : List QuicAckFrame) : ∀ (s : ConnState) (x : List Nat),
    x ∈ s.sent → x ∈ (flushAcksGo l s).sent := by
  induction l with
  | nil => intro s x hx; exact hx
  | cons a rest ih =>
    intro s x hx
    simp only [flushAcksGo]
    exact ih _ x (List.mem_append_left _ hx)

theorem flushAcksGo_sends (l : List QuicAckFrame) : ∀ (s : ConnState) (a : QuicAckFrame),
    a ∈ l → ∃ pn, ackPacket pn a ∈ (flushAcksGo l s).sent := by
  induction l with
  | nil => intro s a ha; exact absurd ha (List.not_mem_nil a)
  | cons a' rest ih =>
    intro s a ha
    rcases List.mem_cons.mp ha with rfl | hmem
    · refine ⟨s.packet_number, ?_⟩
      simp only [flushAcksGo]
      exact flushAcksGo_sent_mono rest _ _
        (List.mem_append_right _ (List.mem_singleton_self _))
    · exact ih _ a hmem

theorem sender_iteration_acklist (now : ℚ) (s : ConnState) :
    (sender_iteration now s).ack_list = [] := by
  simp only [sender_iteration, flushAcks]
  exact flushAcksGo_acklist _ _ rfl

theorem sender_iteration_is_closed (now : ℚ) (s : ConnState) :
    (sender_iteration now s).is_closed = s.is_closed := by
  simp only [sender_iteration, flushAcks]
  rw [(flushAcksGo_preserves _ _).2.2.2.2.2]
  split
  · exact (admitFrames_preserves _ _).2.2.2.2.1
  · exact (admitFrames_preserves _ _).2.2.2.2.1

theorem sender_iteration_sends_acks (now : ℚ) (s : ConnState) :
    ∀ a ∈ s.ack_list, ∃ pn, ackPacket pn a ∈ (sender_iteration now s).sent := by
  intro a ha
  simp only [sender_iteration, flushAcks]
  apply flushAcksGo_sends
  split
  · exact ((admitFrames_preserves (totalPending s + 1) s).2.2.2.1).symm ▸ ha
  · exact ((admitFrames_preserves (totalPending s + 1) s).2.2.2.1).symm ▸ ha

/-- C9: once `close` has raised `is_closed`, whenever the sender loop exits
(`senderLoopRun` returns a final state), it has already transmitted every ACK
that was pending at close time — each appears, wrapped in a OneRTT packet, in
the trace of bytes handed to the socket — and its pending-ACK list is empty
at exit; the loop's exit test (`is_closed and len(ack_list) == 0`) cannot
fire earlier.  (`close` additionally joins both worker threads, so it
returns only after this exit.) -/
theorem close_flushes_pending_acks (sched : List (ℚ × List QuicAckFrame))
    (s final : ConnState) (hclosed : s.is_closed = true)
    (hrun : senderLoopRun sched s = some final) :
    final.ack_list = [] ∧
    ∀ a ∈ s.ack_list, ∃ pn, ackPacket pn a ∈ final.sent := by
  cases sched with
  | nil => simp [senderLoopRun] at hrun
  | cons step rest =>
    obtain ⟨now, incoming⟩ := step
    simp only [senderLoopRun] at hrun
    have hcl : (sender_iteration now { s with ack_list := s.ack_list ++ incoming }).is_closed
        = true := by
      rw [sender_iteration_is_closed]; exact hclosed
    have hemp := sender_iteration_acklist now { s with ack_list := s.ack_list ++ incoming }
    rw [if_pos ⟨hcl, hemp⟩] at hrun
    injection hrun with hrun
    subst hrun
    refine ⟨hemp, ?_⟩
    intro a ha
    exact sender_iteration_sends_acks now _ a (List.mem_append_left _ ha)

/-- A closed connection with one pending ACK (for packet 3). -/
def c9state : ConnState :=
  { initConn 650 5 with is_closed := true, ack_list := [⟨3, 650⟩] }

/-- The state in which the sender loop exits on `c9state`. -/
def c9final : ConnState :=
  sender_iteration 0 { c9state with ack_list := c9state.ack_list ++ [] }

/-- Witness for C9: with one pending ACK at close, the loop exits after one
iteration having sent that ACK and drained the list. -/
theorem close_flushes_pending_acks_witness :
    c9state.is_closed = true ∧
    senderLoopRun [(0, [])] c9state = some c9final ∧
    c9final.ack_list = [] ∧
    ∀ a ∈ c9state.ack_list, ∃ pn, ackPacket pn a ∈ c9final.sent := by
  have hrun : senderLoopRun [(0, [])] c9state = some c9final := by decide
  have h := close_flushes_pending_acks [(0, [])] c9state c9final rfl hrun
  exact ⟨rfl, hrun, h.1, h.2⟩

/-! ## Send-buffer frame preservation -/

theorem lookupSB_setSB_ne (k k' : Nat) (v : List QuicStreamFrame)
    (buf : List (Nat × List QuicStreamFrame)) (h : k ≠ k') :
    lookupSB k (setSB k' v buf) = lookupSB k buf := by
  induction buf with
  | nil =>
    simp only [setSB, lookupSB]
    rw [if_neg (Ne.symm h)]
  | cons p rest ih =>
    obtain ⟨k₀, v₀⟩ := p
    simp only [setSB]
    by_cases h₀ : k₀ = k'
    · subst h₀
      simp only [if_pos rfl, lookupSB]
      rw [if_neg (fun hh => h hh.symm), if_neg (fun hh => h hh.symm)]
    · rw [if_neg h₀]
      simp only [lookupSB]
      by_cases h₁ : k₀ = k
      · rw [if_pos h₁, if_pos h₁]
      · rw [if_neg h₁, if_neg h₁]
        exact ih

theorem admitPassGo_frame_pres (buf : List (Nat × List QuicStreamFrame)) :
    ∀ win wsize pn has (f : QuicStreamFrame),
      f ∈ (buf.map Prod.snd).flatten →
      f ∈ ((admitPassGo buf win wsize pn has).buf.map Prod.snd).flatten ∨
      f ∈ (admitPassGo buf win wsize pn has).win.map SenderWindowEntry.frame := by
  induction buf with
  | nil => intro win wsize pn has f hf; simp at hf
  | cons p rest ih =>
    obtain ⟨sid, q⟩ := p
    cases q with
    | nil =>
      intro win wsize pn has f hf
      simp only [List.map_cons, List.flatten_cons, List.nil_append] at hf
      simp only [admitPassGo, List.map_cons, List.flatten_cons, List.nil_append]
      exact ih win wsize pn has f hf
    | cons g gs =>
      intro win wsize pn has f hf
      simp only [admitPassGo]
      split
      · exact Or.inl hf
      · simp only [List.map_cons, List.flatten_cons] at hf
        rcases List.mem_append.mp hf with hgs | hrest
        · rcases List.mem_cons.mp hgs with rfl | hgs'
          · right
            have hentry : (⟨pn, f, 0⟩ : SenderWindowEntry) ∈
                (admitPassGo rest (win ++ [⟨pn, f, 0⟩]) wsize (pn + 1) true).win :=
              admitPassGo_win_mono rest _ wsize (pn + 1) true _
                (List.mem_append_right _ (List.mem_singleton_self _))
            exact List.mem_map.mpr ⟨⟨pn, f, 0⟩, hentry, rfl⟩
          · left
            simp only [List.map_cons, List.flatten_cons]
            exact List.mem_append_left _ hgs'
        · rcases ih (win ++ [⟨pn, g, 0⟩]) wsize (pn + 1) true f hrest with hl | hr
          · left
            simp only [List.map_cons, List.flatten_cons]
            exact List.mem_append_right _ hl
          · exact Or.inr hr

theorem admitFrames_windowFrames_mono (fuel : Nat) (s : ConnState) :
    ∀ f ∈ windowFrames s, f ∈ windowFrames (admitFrames fuel s) := by
  intro f hf
  simp only [windowFrames] at *
  obtain ⟨e, he, hfe⟩ := List.mem_map.mp hf
  exact List.mem_map.mpr ⟨e, admitFrames_win_mono fuel s e he, hfe⟩

theorem admitFrames_frame_pres (fuel : Nat) : ∀ (s : ConnState) (f : QuicStreamFrame),
    f ∈ pendingFrames s →
    f ∈ pendingFrames (admitFrames fuel s) ∨ f ∈ windowFrames (admitFrames fuel s) := by
  induction fuel with
  | zero => intro s f hf; exact Or.inl hf
  | succ fuel ih =>
    intro s f hf
    simp only [admitFrames]
    split
    · split
      · rcases admitPassGo_frame_pres s.send_buffer s.sender_window s.sender_window_size
          s.packet_number false f hf with hp | hw
        · exact ih _ f hp
        · exact Or.inr (admitFrames_windowFrames_mono fuel _ f hw)
      · rcases admitPassGo_frame_pres s.send_buffer s.sender_window s.sender_window_size
          s.packet_number false f hf with hp | hw
        · exact Or.inl hp
        · exact Or.inr hw
    · exact Or.inl hf

theorem sender_iteration_pres (now : ℚ) (s : ConnState) :
    pendingFrames (sender_iteration now s) =
      pendingFrames (admitFrames (totalPending s + 1) s) ∧
    windowFrames (sender_iteration now s) =
      windowFrames (admitFrames (totalPending s + 1) s) := by
  constructor
  · simp only [sender_iteration, flushAcks, pendingFrames]
    rw [(flushAcksGo_preserves _ _).2.2.2.2.1]
    split
    · rfl
    · rfl
  · simp only [sender_iteration, flushAcks, windowFrames]
    rw [(flushAcksGo_preserves _ _).2.2.2.1]
    split
    · simp only [resendTimedOut, List.map_map]
      apply List.map_congr_left
      intro e _
      simp only [Function.comp_apply]
      split <;> rfl
    · simp only [resendTimedOut, List.map_map]
      apply List.map_congr_left
      intro e _
      simp only [Function.comp_apply]
      split <;> rfl

theorem sender_iteration_frame_pres (now : ℚ) (s : ConnState) (f : QuicStreamFrame)
    (hf : f ∈ pendingFrames s) :
    f ∈ pendingFrames (sender_iteration now s) ∨
      f ∈ windowFrames (sender_iteration now s) := by
  rw [(sender_iteration_pres now s).1, (sender_iteration_pres now s).2]
  exact admitFrames_frame_pres _ s f hf

/-- C10 (amended): a frame queued in `send_buffer` survives a `send` on any
OTHER stream (that stream's queue is untouched), and a sender-loop drain step
never loses it — it stays pending or moves into `sender_window`; but a later
`send` on the SAME stream replaces the stream's queue wholesale
(`send_buffer[stream_id] = frames`), so not-yet-admitted frames of that
stream are discarded (see the counterexample). -/
theorem send_buffer_preservation (s : ConnState) (sid sid' : Nat) (d : List Nat)
    (now : ℚ) (f : QuicStreamFrame) (hne : sid ≠ sid') (hf : f ∈ pendingFrames s) :
    lookupSB sid (sendOnStream sid' d s).send_buffer = lookupSB sid s.send_buffer ∧
    (f ∈ pendingFrames (sender_iteration now s) ∨
      f ∈ windowFrames (sender_iteration now s)) :=
  ⟨lookupSB_setSB_ne sid sid' (fragment sid' d) s.send_buffer hne,
    sender_iteration_frame_pres now s f hf⟩

/-- The single frame `send(1, [1,2,3])` queues. -/
def c10frame : QuicStreamFrame := ⟨1, 0, 3, 1, [1, 2, 3]⟩

/-- Witness for C10: the frame queued on stream 1 is untouched by a send on
stream 2 and survives a sender-iteration drain step. -/
theorem send_buffer_preservation_witness :
    (1 : Nat) ≠ 2 ∧
    c10frame ∈ pendingFrames (sendOnStream 1 [1, 2, 3] (initConn 650 2)) ∧
    lookupSB 1 (sendOnStream 2 [7] (sendOnStream 1 [1, 2, 3] (initConn 650 2))).send_buffer =
      lookupSB 1 (sendOnStream 1 [1, 2, 3] (initConn 650 2)).send_buffer ∧
    (c10frame ∈ pendingFrames (sender_iteration 0 (sendOnStream 1 [1, 2, 3] (initConn 650 2))) ∨
      c10frame ∈ windowFrames (sender_iteration 0 (sendOnStream 1 [1, 2, 3] (initConn 650 2)))) := by
  have h := send_buffer_preservation (sendOnStream 1 [1, 2, 3] (initConn 650 2)) 1 2 [7] 0
    c10frame (by decide) (by decide)
  exact ⟨by decide, by decide, h.1, h.2⟩

/-- C10 counterexample: a second `send` on the SAME stream before the Sender
admits the first frame replaces the queue, losing the not-yet-admitted frame:
after `send(1, [1,2,3])` then `send(1, [9])` the first frame is in neither
the stream's pending queue nor the sender window. -/
theorem resend_same_stream_drops_frames :
    c10frame ∈ pendingFrames (sendOnStream 1 [1, 2, 3] (initConn 650 2)) ∧
    c10frame ∉ pendingFrames (sendOnStream 1 [9] (sendOnStream 1 [1, 2, 3] (initConn 650 2))) ∧
    c10frame ∉ windowFrames (sendOnStream 1 [9] (sendOnStream 1 [1, 2, 3] (initConn 650 2))) := by
  decide
